import Mathlib

/-!
Verification of the GIF optimizer core (scripts/optimize_gif.py).

The embedding models the orchestration logic of `optimize_gif` and the CLI
flag parser `get_flag`.  Python integers are modelled as `ℤ`; Python float
arithmetic (the divisions at lines 28, 35 and 36 of the source) is modelled
exactly over `ℚ`: for the magnitudes that occur (values far below 2^53) the
binary floating point evaluation truncates to the same integer as the exact
rational value, so `int(...)` on those expressions is modelled as rational
truncation toward zero.
-/

namespace OptimizeGif

/-- Python `int(...)` applied to a (real-valued) quantity: truncation toward
zero. -/
def pyInt (q : ℚ) : ℤ :=
  if q < 0 then ⌈q⌉ else ⌊q⌋

/-- Python built-in `round` on a real value: nearest integer, ties to the
even integer.  Used only to state the spec's formula `round(1000/target_fps)`
for comparison with the source, which uses `int(1000/fps)`. -/
def pyRound (q : ℚ) : ℤ :=
  if q - ⌊q⌋ < 1 / 2 then ⌊q⌋
  else if 1 / 2 < q - ⌊q⌋ then ⌊q⌋ + 1
  else if ⌊q⌋ % 2 = 0 then ⌊q⌋ else ⌊q⌋ + 1

/-- A decoded source frame is represented by its timing metadata only: `some d`
when the frame carries an explicit duration (ms), `none` when the metadata is
absent (the pixel data plays no role in the selection logic). -/
abbrev FrameMeta := Option ℤ

/-- Line 33: `orig_durations = [frame.info.get("duration", 100) for frame in ...]`;
a frame lacking metadata contributes the fallback 100. -/
def origDurations (frames : List FrameMeta) : List ℤ :=
  frames.map fun f => f.getD 100

/-- Line 35: `avg_duration = sum(orig_durations) / len(orig_durations) if
orig_durations else 100` (Python float division, modelled exactly). -/
def avgDuration (frames : List FrameMeta) : ℚ :=
  if frames = [] then 100
  else ((origDurations frames).sum : ℚ) / (frames.length : ℚ)

/-- Line 48: the duration the selection loop uses for each frame,
`dur = frame.info.get("duration", int(avg_duration))`. -/
def usedDurations (frames : List FrameMeta) : List ℤ :=
  frames.map fun f => f.getD (pyInt (avgDuration frames))

/-- Line 36: `target_frame_duration = max(10, int(1000 / fps))`.
`fps = 0` raises `ZeroDivisionError` in Python, modelled as `none`. -/
def targetFrameDuration (fps : ℤ) : Option ℤ :=
  if fps = 0 then none
  else some (max 10 (pyInt ((1000 : ℚ) / (fps : ℚ))))

/-- Lines 41-56: the duration-accumulation loop.  `i` is the current frame
index and `acc` the running accumulator (0 on entry, matching `acc = 0` at
`i == 0`).  A frame is emitted as `(index, target_frame_duration)` exactly
when `acc + dur >= target or i == 0`, and the accumulator resets to 0 at
every emission. -/
def selectLoop (target : ℤ) : List ℤ → Nat → ℤ → List (Nat × ℤ)
  | [], _, _ => []
  | dur :: rest, i, acc =>
    if acc + dur ≥ target ∨ i = 0 then (i, target) :: selectLoop target rest (i + 1) 0
    else selectLoop target rest (i + 1) (acc + dur)

/-- The frame selector on a decoded frame list: runs the accumulation loop
over the per-frame durations of line 48, starting at index 0 with a zero
accumulator. -/
def selectFrames (frames : List FrameMeta) (target : ℤ) : List (Nat × ℤ) :=
  selectLoop target (usedDurations frames) 0 0

/-- One entry of the resulting plan: either input frame `index` emitted with
the shared output duration, or (lines 58-64) the synthesized fallback frame
built from the full source image. -/
inductive PlanEntry where
  | frame (index : Nat) (duration : ℤ)
  | fallback (duration : ℤ)
deriving DecidableEq

/-- Lines 36-64 of `optimize_gif`: compute the target duration, run the
selection loop, and fall back to a single synthesized frame when the
selection is empty.  `none` models the `ZeroDivisionError` at `fps = 0`. -/
def selectionPlan (frames : List FrameMeta) (fps : ℤ) : Option (List PlanEntry) :=
  (targetFrameDuration fps).map fun t =>
    let sel := (selectFrames frames t).map fun p => PlanEntry.frame p.1 p.2
    if sel.isEmpty then [PlanEntry.fallback t] else sel

/-- Line 28: `scale = min(max_width / w, max_height / h, 1.0)`. -/
def planScale (w h mw mh : ℤ) : ℚ :=
  min (min ((mw : ℚ) / (w : ℚ)) ((mh : ℚ) / (h : ℚ))) 1

/-- Line 29: `new_size = (max(1, int(w * scale)), max(1, int(h * scale)))`. -/
def planDimensions (w h mw mh : ℤ) : ℤ × ℤ :=
  (max 1 (pyInt ((w : ℚ) * planScale w h mw mh)),
   max 1 (pyInt ((h : ℚ) * planScale w h mw mh)))

/-! ### Output path (line 73)

`out_path = input_path.with_name(input_path.stem + ".optimized.gif")`.
A `pathlib` path is modelled as its parent components plus its final
component (`name`, a character list); `stem`/`suffix` follow CPython's
`pathlib`: the suffix is the part of the name from its last dot, provided
that dot is neither the first nor the last character of the name. -/

/-- CPython `pathlib` split of a file name into `(stem, suffix)`. -/
def stemSuffix (name : List Char) : List Char × List Char :=
  let rev := name.reverse
  let pre := rev.takeWhile fun c => c != '.'
  match rev.dropWhile (fun c => c != '.') with
  | [] => (name, [])
  | _ :: stemRev =>
    if stemRev.isEmpty ∨ pre.isEmpty then (name, [])
    else (stemRev.reverse, '.' :: pre.reverse)

/-- A filesystem path: parent directory components plus the final name. -/
structure PyPath where
  parent : List (List Char)
  name : List Char
deriving DecidableEq

/-- `Path.with_name`: replace the final component, keeping the directory. -/
def with_name (p : PyPath) (n : List Char) : PyPath :=
  ⟨p.parent, n⟩

/-- `Path.stem` of the final component. -/
def pathStem (p : PyPath) : List Char :=
  (stemSuffix p.name).1

/-- `Path.suffix` of the final component. -/
def pathSuffix (p : PyPath) : List Char :=
  (stemSuffix p.name).2

/-- Line 73: `input_path.with_name(input_path.stem + ".optimized.gif")`. -/
def outPath (p : PyPath) : PyPath :=
  with_name p (pathStem p ++ (".optimized.gif").data)

/-- Number of dots in a name part. -/
def dotCount (l : List Char) : Nat :=
  l.countP fun c => c = '.'

/-! ### CLI flag parsing (lines 108-115)

```
def get_flag(name, default):
    if name in args:
        idx = args.index(name)
        try:
            return int(args[idx + 1])
        except Exception:
            return default
    return default
```
`int(str)` accepts optional surrounding whitespace, an optional sign, and a
non-empty digit sequence with single underscores allowed between digits;
anything else raises `ValueError`.  Both that `ValueError` and the
`IndexError` when the flag is the final argument are caught by the bare
`except`, yielding the default. -/

/-- Digits of a Python integer literal after the first digit: digits with
single underscores allowed between digits. -/
def pyDigitsAux : List Char → ℕ → Option ℕ
  | [], acc => some acc
  | c :: rest, acc =>
    if c.isDigit then pyDigitsAux rest (10 * acc + (c.toNat - 48))
    else if c = '_' then
      match rest with
      | [] => none
      | d :: rest2 =>
        if d.isDigit then pyDigitsAux rest2 (10 * acc + (d.toNat - 48)) else none
    else none

/-- A non-empty Python digit sequence (must start with a digit). -/
def pyDigits : List Char → Option ℕ
  | [] => none
  | c :: rest => if c.isDigit then pyDigitsAux rest (c.toNat - 48) else none

/-- Strip leading and trailing whitespace. -/
def stripWs (l : List Char) : List Char :=
  ((l.dropWhile Char.isWhitespace).reverse.dropWhile Char.isWhitespace).reverse

/-- Python `int(s)` on a string: `some n` when the string parses as an
integer literal, `none` when `int` raises `ValueError`. -/
def pyParseInt (s : String) : Option ℤ :=
  match stripWs s.data with
  | '+' :: rest => (pyDigits rest).map fun n => (n : ℤ)
  | '-' :: rest => (pyDigits rest).map fun n => -(n : ℤ)
  | l => (pyDigits l).map fun n => (n : ℤ)

/-- Lines 108-115: `get_flag` scans for the first occurrence of `name`; the
following argument is parsed with `int`, and any exception (unparseable
value, or no following argument) yields the default. -/
def get_flag (args : List String) (name : String) (default : ℤ) : ℤ :=
  match args with
  | [] => default
  | a :: rest =>
    if a = name then
      match rest with
      | [] => default
      | v :: _ => (pyParseInt v).getD default
    else get_flag rest name default

end OptimizeGif

namespace OptimizeGif

/-! ### Helper lemmas -/

lemma pyInt_of_nonneg {q : ℚ} (h : 0 ≤ q) : pyInt q = ⌊q⌋ := by
  rw [pyInt, if_neg (not_lt.2 h)]

lemma targetFrameDuration_of_ne {fps : ℤ} (h : fps ≠ 0) :
    targetFrameDuration fps = some (max 10 (pyInt ((1000 : ℚ) / (fps : ℚ)))) := by
  rw [targetFrameDuration, if_neg h]

lemma targetFrameDuration_twelve : targetFrameDuration 12 = some 83 := by
  simp only [targetFrameDuration, pyInt]
  norm_num

lemma targetFrameDuration_thousand : targetFrameDuration 1000 = some 10 := by
  simp only [targetFrameDuration, pyInt]
  norm_num

lemma targetFrameDuration_six : targetFrameDuration 6 = some 166 := by
  simp only [targetFrameDuration, pyInt]
  norm_num

lemma selectLoop_length (t : ℤ) (durs : List ℤ) :
    ∀ (i : ℕ) (acc : ℤ), (selectLoop t durs i acc).length ≤ durs.length := by
  induction durs with
  | nil => intro i acc; simp [selectLoop]
  | cons d rest ih =>
    intro i acc
    simp only [selectLoop]
    split
    · simpa using ih (i + 1) 0
    · exact le_trans (ih (i + 1) (acc + d)) (Nat.le_succ _)

lemma selectLoop_snd_eq (t : ℤ) (durs : List ℤ) :
    ∀ (i : ℕ) (acc : ℤ), ∀ p ∈ selectLoop t durs i acc, p.2 = t := by
  induction durs with
  | nil => intro i acc p hp; simp [selectLoop] at hp
  | cons d rest ih =>
    intro i acc p hp
    simp only [selectLoop] at hp
    split at hp
    · rcases List.mem_cons.mp hp with h | h
      · rw [h]
      · exact ih (i + 1) 0 p h
    · exact ih (i + 1) (acc + d) p hp

lemma selectLoop_fst_ge (t : ℤ) (durs : List ℤ) :
    ∀ (i : ℕ) (acc : ℤ), ∀ p ∈ selectLoop t durs i acc, i ≤ p.1 := by
  induction durs with
  | nil => intro i acc p hp; simp [selectLoop] at hp
  | cons d rest ih =>
    intro i acc p hp
    simp only [selectLoop] at hp
    split at hp
    · rcases List.mem_cons.mp hp with h | h
      · rw [h]
      · exact le_trans (Nat.le_succ i) (ih (i + 1) 0 p h)
    · exact le_trans (Nat.le_succ i) (ih (i + 1) (acc + d) p hp)

lemma selectLoop_sorted (t : ℤ) (durs : List ℤ) :
    ∀ (i : ℕ) (acc : ℤ), ((selectLoop t durs i acc).map Prod.fst).Pairwise (· < ·) := by
  induction durs with
  | nil => intro i acc; simp [selectLoop]
  | cons d rest ih =>
    intro i acc
    simp only [selectLoop]
    split
    · rw [List.map_cons]
      refine List.pairwise_cons.mpr ⟨?_, ih (i + 1) 0⟩
      intro j hj
      rcases List.mem_map.mp hj with ⟨p, hp, rfl⟩
      have := selectLoop_fst_ge t rest (i + 1) 0 p hp
      omega
    · exact ih (i + 1) (acc + d)

lemma usedDurations_length (frames : List FrameMeta) :
    (usedDurations frames).length = frames.length := by
  simp [usedDurations]

lemma selectFrames_head (frames : List FrameMeta) (t : ℤ) (h : frames ≠ []) :
    ∃ r, selectFrames frames t = (0, t) :: r := by
  rcases frames with _ | ⟨f, fs⟩
  · exact absurd rfl h
  · refine ⟨selectLoop t (fs.map fun g => g.getD (pyInt (avgDuration (f :: fs)))) 1 0, ?_⟩
    rw [selectFrames]
    have hu : usedDurations (f :: fs) =
        f.getD (pyInt (avgDuration (f :: fs))) ::
          (fs.map fun g => g.getD (pyInt (avgDuration (f :: fs)))) := by
      simp [usedDurations]
    rw [hu]
    simp [selectLoop]

lemma usedDurations_replicate :
    usedDurations (List.replicate 10 (some 20)) = List.replicate 10 (20 : ℤ) := by
  simp [usedDurations]

lemma selectionPlan_scenarioB_eval :
    selectionPlan (List.replicate 10 (some 20)) 12 =
      some [PlanEntry.frame 0 83, PlanEntry.frame 5 83] := by
  rw [selectionPlan, targetFrameDuration_twelve, Option.map_some']
  simp only [selectFrames, usedDurations_replicate]
  decide

lemma pyInt_avg_mixed : pyInt (avgDuration [some 50, none]) = 75 := by
  have h : avgDuration [some 50, none] = 75 := by
    rw [avgDuration, if_neg (by simp)]
    simp [origDurations]
    norm_num
  rw [h, pyInt]
  norm_num

lemma get_flag_append {pre : List String} {name : String} (l : List String) (d : ℤ)
    (h : name ∉ pre) : get_flag (pre ++ l) name d = get_flag l name d := by
  induction pre with
  | nil => rfl
  | cons a as ih =>
    simp only [List.mem_cons, not_or] at h
    obtain ⟨h1, h2⟩ := h
    simp only [List.cons_append, get_flag]
    rw [if_neg fun heq => h1 heq.symm]
    exact ih h2

lemma get_flag_cons_unparseable {v : String} (post : List String) (name : String) (d : ℤ)
    (hv : pyParseInt v = none) : get_flag (name :: v :: post) name d = d := by
  simp [get_flag, hv]

lemma get_flag_last (name : String) (d : ℤ) : get_flag [name] name d = d := by
  simp [get_flag]

lemma takeWhile_ne_dot (l : List Char) :
    ∀ c ∈ l.takeWhile (fun a => a != '.'), ¬(c = '.') := by
  intro c hc
  have := List.mem_takeWhile_imp hc
  simpa using this

lemma dropWhile_ne_dot_head {l : List Char} {c : Char} {rest : List Char}
    (h : l.dropWhile (fun a => a != '.') = c :: rest) : c = '.' := by
  induction l with
  | nil => simp [List.dropWhile] at h
  | cons a as ih =>
    rw [List.dropWhile_cons] at h
    split at h
    · exact ih h
    · next hcond =>
      obtain ⟨rfl, -⟩ := List.cons.inj h
      simpa using hcond

lemma stemSuffix_append (n : List Char) : (stemSuffix n).1 ++ (stemSuffix n).2 = n := by
  simp only [stemSuffix]
  split
  · simp
  · next c stemRev heq =>
    split
    · simp
    · have hc : c = '.' := dropWhile_ne_dot_head heq
      have hdecomp : (n.reverse.takeWhile fun a => a != '.') ++ (c :: stemRev) = n.reverse := by
        rw [← heq]
        exact List.takeWhile_append_dropWhile _ _
      have : n = stemRev.reverse ++ '.' :: (n.reverse.takeWhile fun a => a != '.').reverse := by
        conv_lhs => rw [← List.reverse_reverse n, ← hdecomp]
        rw [List.reverse_append, List.reverse_cons, hc]
        simp
      simpa using this.symm

lemma dotCount_stemSuffix_le (n : List Char) : dotCount (stemSuffix n).2 ≤ 1 := by
  simp only [stemSuffix]
  split
  · simp [dotCount]
  · next c stemRev heq =>
    split
    · simp [dotCount]
    · rw [dotCount, List.countP_cons]
      have hz : (n.reverse.takeWhile fun a => a != '.').reverse.countP (fun c => c = '.') = 0 := by
        rw [List.countP_eq_zero]
        intro a ha
        rw [List.mem_reverse] at ha
        simpa using takeWhile_ne_dot n.reverse a ha
      simp [hz]

/-! ### Claim theorems -/

/-- Claim C1, counterexample: for 10 input frames of 20 ms each at
`target_fps = 12` (threshold 83 ms) the selection algorithm emits 2 frames,
not the 3 the claim states. -/
theorem scenarioB_not_three_frames :
    Option.map List.length (selectionPlan (List.replicate 10 (some 20)) 12) = some 2 ∧
    Option.map List.length (selectionPlan (List.replicate 10 (some 20)) 12) ≠ some 3 := by
  rw [selectionPlan_scenarioB_eval]
  exact ⟨rfl, by decide⟩

/-- Claim C1, amended: for 10 input frames of 20 ms each at `target_fps = 12`
(threshold 83 ms) the selection algorithm selects exactly 2 frames, input
indices 0 and 5, each assigned 83 ms. -/
theorem scenarioB_selection :
    selectionPlan (List.replicate 10 (some 20)) 12 =
      some [PlanEntry.frame 0 83, PlanEntry.frame 5 83] :=
  selectionPlan_scenarioB_eval

/-- Claim C2, counterexample: at `target_fps = 6` the code computes
`max(10, int(1000/6)) = 166`, while the claimed formula
`max(10, round(1000/6))` gives 167. -/
theorem targetDuration_not_round :
    targetFrameDuration 6 ≠ some (max 10 (pyRound ((1000 : ℚ) / ((6 : ℤ) : ℚ)))) := by
  have h2 : max 10 (pyRound ((1000 : ℚ) / ((6 : ℤ) : ℚ))) = 167 := by
    simp only [pyRound]
    norm_num
  rw [targetFrameDuration_six, h2]
  decide

/-- Claim C2, amended: for every `target_fps ≥ 1` the shared target duration
is `max(10, floor(1000 / target_fps))` (truncating division, not rounding);
in particular it is 83 for `target_fps = 12` and 10 for `target_fps = 1000`. -/
theorem targetDuration_floor_formula (fps : ℤ) (h : 1 ≤ fps) :
    targetFrameDuration fps = some (max 10 ⌊(1000 : ℚ) / (fps : ℚ)⌋) ∧
    targetFrameDuration 12 = some 83 ∧ targetFrameDuration 1000 = some 10 := by
  refine ⟨?_, targetFrameDuration_twelve, targetFrameDuration_thousand⟩
  rw [targetFrameDuration_of_ne (by omega : fps ≠ 0)]
  have hq : (0 : ℚ) ≤ (1000 : ℚ) / (fps : ℚ) := by
    apply div_nonneg (by norm_num)
    exact_mod_cast (by omega : (0 : ℤ) ≤ fps)
  rw [pyInt_of_nonneg hq]

/-- Witness for the amended C2 theorem at `target_fps = 12`. -/
theorem targetDuration_floor_formula_witness :
    (1 : ℤ) ≤ 12 ∧
    (targetFrameDuration 12 = some (max 10 ⌊(1000 : ℚ) / ((12 : ℤ) : ℚ)⌋) ∧
     targetFrameDuration 12 = some 83 ∧ targetFrameDuration 1000 = some 10) :=
  ⟨by norm_num, targetDuration_floor_formula 12 (by norm_num)⟩

/-- Claim C3, counterexample: in the input `[some 50, none]`, the frame at
index 1 lacks timing metadata, yet the duration used for it by the selection
loop is `int(avg_duration) = 75`, not 100 — it depends on the other frames. -/
theorem fallback_duration_not_hundred :
    (usedDurations [some 50, none])[1]? = some 75 ∧ ¬((75 : ℤ) = 100) := by
  refine ⟨?_, by decide⟩
  simp [usedDurations, pyInt_avg_mixed]

/-- Claim C3, amended: a frame lacking explicit timing metadata is given the
duration `int(avg_duration)` — the truncated mean of the original durations
in which missing ones count as 100 — which depends on the other frames'
durations; it equals 100 exactly in cases such as every frame lacking
metadata. -/
theorem fallback_duration_is_average (frames : List FrameMeta) (i : ℕ)
    (h : frames[i]? = some none) :
    (usedDurations frames)[i]? = some (pyInt (avgDuration frames)) ∧
    ((∀ f ∈ frames, f = none) → pyInt (avgDuration frames) = 100) := by
  constructor
  · rw [usedDurations, List.getElem?_map, h]
    rfl
  · intro hall
    have hne : frames ≠ [] := by
      intro h0
      rw [h0] at h
      simp at h
    have hlen : frames.length ≠ 0 := fun h0 => hne (List.length_eq_zero.mp h0)
    have hrep : origDurations frames = List.replicate frames.length (100 : ℤ) := by
      rw [List.eq_replicate_iff]
      refine ⟨by simp [origDurations], ?_⟩
      intro b hb
      rcases List.mem_map.mp hb with ⟨f, hf, rfl⟩
      rw [hall f hf]
      rfl
    have havg : avgDuration frames = 100 := by
      rw [avgDuration, if_neg hne, hrep]
      rw [List.sum_replicate, nsmul_eq_mul]
      have hQ : (frames.length : ℚ) ≠ 0 := Nat.cast_ne_zero.mpr hlen
      push_cast
      field_simp
    rw [havg, pyInt]
    norm_num

/-- Witness for the amended C3 theorem on the input `[some 50, none]`. -/
theorem fallback_duration_is_average_witness :
    ([some 50, none] : List FrameMeta)[1]? = some none ∧
    ((usedDurations [some 50, none])[1]? = some (pyInt (avgDuration [some 50, none])) ∧
     ((∀ f ∈ ([some 50, none] : List FrameMeta), f = none) →
       pyInt (avgDuration [some 50, none]) = 100)) :=
  ⟨rfl, fallback_duration_is_average [some 50, none] 1 rfl⟩

/-- Claim C4, counterexample: at `target_fps = 0` the selector does fail
(`ZeroDivisionError` at `int(1000 / fps)`), so there is no plan at all. -/
theorem selectionPlan_fps_zero :
    selectionPlan ([] : List FrameMeta) 0 = none := by
  simp [selectionPlan, targetFrameDuration]

/-- Claim C4, amended: for every nonzero `target_fps` the selector cannot
fail and always returns a non-empty plan, and on empty input the plan is
exactly one synthesized frame built from the full source image. -/
theorem selectionPlan_total (frames : List FrameMeta) (fps : ℤ) (h : fps ≠ 0) :
    ∃ t plan, targetFrameDuration fps = some t ∧ selectionPlan frames fps = some plan ∧
      plan ≠ [] ∧ (frames = [] → plan = [PlanEntry.fallback t]) := by
  have hT := targetFrameDuration_of_ne h
  rcases frames with _ | ⟨f, fs⟩
  · refine ⟨_, [PlanEntry.fallback (max 10 (pyInt ((1000 : ℚ) / (fps : ℚ))))], hT, ?_,
      by simp, fun _ => rfl⟩
    rw [selectionPlan, hT, Option.map_some']
    simp [selectFrames, usedDurations, selectLoop]
  · obtain ⟨r, hr⟩ := selectFrames_head (f :: fs)
      (max 10 (pyInt ((1000 : ℚ) / (fps : ℚ)))) (List.cons_ne_nil f fs)
    refine ⟨_, PlanEntry.frame 0 (max 10 (pyInt ((1000 : ℚ) / (fps : ℚ)))) ::
        (r.map fun p => PlanEntry.frame p.1 p.2), hT, ?_, by simp, by intro h'; simp at h'⟩
    rw [selectionPlan, hT, Option.map_some']
    simp [hr]

/-- Witness for the amended C4 theorem: empty input at `target_fps = 12`. -/
theorem selectionPlan_total_witness :
    (12 : ℤ) ≠ 0 ∧
    (∃ t plan, targetFrameDuration 12 = some t ∧
      selectionPlan ([] : List FrameMeta) 12 = some plan ∧ plan ≠ [] ∧
      (([] : List FrameMeta) = [] → plan = [PlanEntry.fallback t])) :=
  ⟨by norm_num, selectionPlan_total [] 12 (by norm_num)⟩

/-- Claim C5: on every non-empty input the selector emits index 0 first with
the shared target duration, emits at most as many frames as the input has,
gives every emitted frame the identical target duration, and emits strictly
increasing input indices (order preserved, no frame selected twice). -/
theorem frameSelector_invariants (frames : List FrameMeta) (t : ℤ) (h : frames ≠ []) :
    (∃ r, selectFrames frames t = (0, t) :: r) ∧
    (selectFrames frames t).length ≤ frames.length ∧
    (∀ p ∈ selectFrames frames t, p.2 = t) ∧
    ((selectFrames frames t).map Prod.fst).Pairwise (· < ·) := by
  refine ⟨selectFrames_head frames t h, ?_, ?_, ?_⟩
  · have h1 := selectLoop_length t (usedDurations frames) 0 0
    have h2 := usedDurations_length frames
    rw [selectFrames]
    omega
  · exact fun p hp => selectLoop_snd_eq t (usedDurations frames) 0 0 p hp
  · exact selectLoop_sorted t (usedDurations frames) 0 0

/-- Witness for the C5 theorem on a concrete two-frame input. -/
theorem frameSelector_invariants_witness :
    ([some 100, some 100] : List FrameMeta) ≠ [] ∧
    ((∃ r, selectFrames [some 100, some 100] 83 = (0, 83) :: r) ∧
     (selectFrames [some 100, some 100] 83).length ≤
       ([some 100, some 100] : List FrameMeta).length ∧
     (∀ p ∈ selectFrames [some 100, some 100] 83, p.2 = 83) ∧
     ((selectFrames [some 100, some 100] 83).map Prod.fst).Pairwise (· < ·)) :=
  ⟨by simp, frameSelector_invariants [some 100, some 100] 83 (by simp)⟩

/-- Claim C6: with source dimensions ≥ 1 and positive bounds, each planned
output dimension is `max(1, floor(source_dim * min(mw/w, mh/h, 1)))`, is
never larger than the source dimension, and is never 0. -/
theorem planDimensions_formula (w h mw mh : ℤ) (hw : 1 ≤ w) (hh : 1 ≤ h)
    (hmw : 1 ≤ mw) (hmh : 1 ≤ mh) :
    planDimensions w h mw mh =
      (max 1 ⌊(w : ℚ) * planScale w h mw mh⌋, max 1 ⌊(h : ℚ) * planScale w h mw mh⌋) ∧
    (planDimensions w h mw mh).1 ≤ w ∧ (planDimensions w h mw mh).2 ≤ h ∧
    1 ≤ (planDimensions w h mw mh).1 ∧ 1 ≤ (planDimensions w h mw mh).2 := by
  have hwQ : (0 : ℚ) < (w : ℚ) := by exact_mod_cast (by omega : (0 : ℤ) < w)
  have hhQ : (0 : ℚ) < (h : ℚ) := by exact_mod_cast (by omega : (0 : ℤ) < h)
  have hmwQ : (0 : ℚ) ≤ (mw : ℚ) := by exact_mod_cast (by omega : (0 : ℤ) ≤ mw)
  have hmhQ : (0 : ℚ) ≤ (mh : ℚ) := by exact_mod_cast (by omega : (0 : ℤ) ≤ mh)
  have hs0 : 0 ≤ planScale w h mw mh :=
    le_min (le_min (div_nonneg hmwQ hwQ.le) (div_nonneg hmhQ hhQ.le)) zero_le_one
  have hs1 : planScale w h mw mh ≤ 1 := min_le_right _ _
  have hwprod : (0 : ℚ) ≤ (w : ℚ) * planScale w h mw mh := mul_nonneg hwQ.le hs0
  have hhprod : (0 : ℚ) ≤ (h : ℚ) * planScale w h mw mh := mul_nonneg hhQ.le hs0
  have hwle : ⌊(w : ℚ) * planScale w h mw mh⌋ ≤ w := by
    have hle : (w : ℚ) * planScale w h mw mh ≤ (w : ℚ) := by
      calc (w : ℚ) * planScale w h mw mh ≤ (w : ℚ) * 1 :=
            mul_le_mul_of_nonneg_left hs1 hwQ.le
        _ = (w : ℚ) := mul_one _
    calc ⌊(w : ℚ) * planScale w h mw mh⌋ ≤ ⌊(w : ℚ)⌋ := Int.floor_le_floor hle
      _ = w := Int.floor_intCast w
  have hhle : ⌊(h : ℚ) * planScale w h mw mh⌋ ≤ h := by
    have hle : (h : ℚ) * planScale w h mw mh ≤ (h : ℚ) := by
      calc (h : ℚ) * planScale w h mw mh ≤ (h : ℚ) * 1 :=
            mul_le_mul_of_nonneg_left hs1 hhQ.le
        _ = (h : ℚ) := mul_one _
    calc ⌊(h : ℚ) * planScale w h mw mh⌋ ≤ ⌊(h : ℚ)⌋ := Int.floor_le_floor hle
      _ = h := Int.floor_intCast h
  have e1 : (planDimensions w h mw mh).1 = max 1 (pyInt ((w : ℚ) * planScale w h mw mh)) := rfl
  have e2 : (planDimensions w h mw mh).2 = max 1 (pyInt ((h : ℚ) * planScale w h mw mh)) := rfl
  refine ⟨?_, ?_, ?_, ?_, ?_⟩
  · rw [planDimensions, pyInt_of_nonneg hwprod, pyInt_of_nonneg hhprod]
  · rw [e1, pyInt_of_nonneg hwprod]
    exact max_le hw hwle
  · rw [e2, pyInt_of_nonneg hhprod]
    exact max_le hh hhle
  · rw [e1]
    exact le_max_left _ _
  · rw [e2]
    exact le_max_left _ _

/-- Witness for the C6 theorem at a 100x50 source bounded to 30x30. -/
theorem planDimensions_formula_witness :
    (1 : ℤ) ≤ 100 ∧ (1 : ℤ) ≤ 50 ∧ (1 : ℤ) ≤ 30 ∧ (1 : ℤ) ≤ 30 ∧
    (planDimensions 100 50 30 30 =
      (max 1 ⌊((100 : ℤ) : ℚ) * planScale 100 50 30 30⌋,
       max 1 ⌊((50 : ℤ) : ℚ) * planScale 100 50 30 30⌋) ∧
     (planDimensions 100 50 30 30).1 ≤ 100 ∧ (planDimensions 100 50 30 30).2 ≤ 50 ∧
     1 ≤ (planDimensions 100 50 30 30).1 ∧ 1 ≤ (planDimensions 100 50 30 30).2) :=
  ⟨by norm_num, by norm_num, by norm_num, by norm_num,
    planDimensions_formula 100 50 30 30 (by norm_num) (by norm_num) (by norm_num) (by norm_num)⟩

/-- Claim C10: the `max(1, ...)` guard makes both output dimensions at least
1 for arbitrary integer bounds, including zero and negative ones. -/
theorem planDimensions_ge_one (w h mw mh : ℤ) (hw : 1 ≤ w) (hh : 1 ≤ h) :
    1 ≤ (planDimensions w h mw mh).1 ∧ 1 ≤ (planDimensions w h mw mh).2 :=
  ⟨le_max_left _ _, le_max_left _ _⟩

/-- Witness for the C10 theorem with bounds 0 and -3. -/
theorem planDimensions_ge_one_witness :
    (1 : ℤ) ≤ 5 ∧ (1 : ℤ) ≤ 5 ∧
    (1 ≤ (planDimensions 5 5 0 (-3)).1 ∧ 1 ≤ (planDimensions 5 5 0 (-3)).2) :=
  ⟨by norm_num, by norm_num, planDimensions_ge_one 5 5 0 (-3) (by norm_num) (by norm_num)⟩

/-- Claim C7, counterexample: for input name `anim.png` the output name is
`anim.optimized.gif` — its extension is `.gif`, not the input's `.png`. -/
theorem outPath_extension_gif :
    pathSuffix (outPath ⟨[], ("anim.png").data⟩) = (".gif").data ∧
    pathSuffix (⟨[], ("anim.png").data⟩ : PyPath) = (".png").data ∧
    (".gif").data ≠ (".png").data := by
  refine ⟨by decide, by decide, by decide⟩

/-- Claim C7, amended: the output path is the input's directory with name
`<input-stem>.optimized.gif` (the extension is always `.gif`, regardless of
the input's extension), and it never equals the input path. -/
theorem outPath_spec (p : PyPath) :
    (outPath p).parent = p.parent ∧
    (outPath p).name = pathStem p ++ (".optimized.gif").data ∧
    outPath p ≠ p := by
  refine ⟨rfl, rfl, ?_⟩
  intro he
  have hname : pathStem p ++ (".optimized.gif").data = p.name := congrArg PyPath.name he
  have hsplit : pathStem p ++ pathSuffix p = p.name := stemSuffix_append p.name
  have heq : (".optimized.gif").data = pathSuffix p :=
    List.append_cancel_left (hname.trans hsplit.symm)
  have h2 : dotCount (pathSuffix p) ≤ 1 := dotCount_stemSuffix_le p.name
  rw [← heq] at h2
  have h3 : dotCount ((".optimized.gif").data) = 2 := by decide
  omega

/-- Claim C8: when any of the four numeric flags is followed by a value that
does not parse as a Python integer, the parsed value is that flag's default
(480, 480, 128, 12 respectively), exactly as if the flag were absent. -/
theorem flags_unparseable_default (pre post : List String) (v : String)
    (hv : pyParseInt v = none)
    (h1 : ("--max-width") ∉ pre) (h2 : ("--max-height") ∉ pre)
    (h3 : ("--colors") ∉ pre) (h4 : ("--fps") ∉ pre) :
    get_flag (pre ++ ("--max-width") :: v :: post) ("--max-width") 480 = 480 ∧
    get_flag (pre ++ ("--max-height") :: v :: post) ("--max-height") 480 = 480 ∧
    get_flag (pre ++ ("--colors") :: v :: post) ("--colors") 128 = 128 ∧
    get_flag (pre ++ ("--fps") :: v :: post) ("--fps") 12 = 12 := by
  refine ⟨?_, ?_, ?_, ?_⟩
  · rw [get_flag_append (("--max-width") :: v :: post) 480 h1]
    exact get_flag_cons_unparseable post ("--max-width") 480 hv
  · rw [get_flag_append (("--max-height") :: v :: post) 480 h2]
    exact get_flag_cons_unparseable post ("--max-height") 480 hv
  · rw [get_flag_append (("--colors") :: v :: post) 128 h3]
    exact get_flag_cons_unparseable post ("--colors") 128 hv
  · rw [get_flag_append (("--fps") :: v :: post) 12 h4]
    exact get_flag_cons_unparseable post ("--fps") 12 hv

/-- Witness for the C8 theorem: value `abc` does not parse, defaults apply. -/
theorem flags_unparseable_default_witness :
    pyParseInt ("abc") = none ∧
    (get_flag ([] ++ ("--max-width") :: ("abc") :: []) ("--max-width") 480 = 480 ∧
     get_flag ([] ++ ("--max-height") :: ("abc") :: []) ("--max-height") 480 = 480 ∧
     get_flag ([] ++ ("--colors") :: ("abc") :: []) ("--colors") 128 = 128 ∧
     get_flag ([] ++ ("--fps") :: ("abc") :: []) ("--fps") 12 = 12) :=
  ⟨by decide, flags_unparseable_default [] [] ("abc") (by decide)
    (by decide) (by decide) (by decide) (by decide)⟩

/-- Claim C9: a recognized flag appearing as the last argument with no value
after it does not make parsing fail: the default is used (the `IndexError`
is caught like an unparseable value). -/
theorem flag_missing_value (pre : List String) (name : String) (d : ℤ)
    (h : name ∉ pre) : get_flag (pre ++ [name]) name d = d := by
  rw [get_flag_append [name] d h]
  exact get_flag_last name d

/-- Witness for the C9 theorem: `--fps` as the final argument. -/
theorem flag_missing_value_witness :
    ("--fps") ∉ ([] : List String) ∧ get_flag ([] ++ [("--fps")]) ("--fps") 12 = 12 :=
  ⟨by decide, flag_missing_value [] ("--fps") 12 (by decide)⟩

end OptimizeGif
